import Mathlib

/-
Verification of the pdfcpu core (optimize.go, write.go, the object/xref
stream dict file) against its natural-language specification.

Each namespace below is a shallow embedding of one cluster of source
functions:
  PdfOStm : ObjectStreamDict.AddObject             (object/xref stream file)
  PdfFid  : ensureFileID                           (write.go)
  PdfEnc  : handleEncryption / setupEncryption / updateEncryption (write.go)
  PdfCnt  : optimizeFontAndImages / OptimizeXRefTable page-count checks (optimize.go)
  PdfXw   : writeXRefStream field widths, int64ToBuf (write.go)
  PdfOpt  : font/image dedup: handleDuplicateFontObject,
            optimizeFontResourcesDict, handleDuplicateImageObject (optimize.go)
  PdfDel  : deleteRedundantObject / deleteRedundantObjects (write.go)

Go maps are modelled as functions into Option, Go slices as lists,
Go []byte as List Nat, in-place mutation as explicit state passing.
External collaborators (filter codecs, encryption primitives, structural
equality, dereferencing) are universally quantified parameters.
-/

namespace PdfOStm

/-- PDF object variants as dispatched by AddObject's type switch.  The
eight packable variants carry the result of their external PDFString
serialization as an abstract byte list; the remaining variants
(stream dict, indirect ref, null) fall to the default error branch. -/
inductive PdfObj where
  | dict (pdfString : List Nat)
  | arr (pdfString : List Nat)
  | integer (pdfString : List Nat)
  | float (pdfString : List Nat)
  | stringLiteral (pdfString : List Nat)
  | hexLiteral (pdfString : List Nat)
  | boolean (pdfString : List Nat)
  | name (pdfString : List Nat)
  | streamDict
  | indirectRef
  | null
deriving DecidableEq, Repr

/-- True exactly on the eight variants handled by AddObject's switch. -/
def isPackable : PdfObj → Bool
  | .dict _ => true
  | .arr _ => true
  | .integer _ => true
  | .float _ => true
  | .stringLiteral _ => true
  | .hexLiteral _ => true
  | .boolean _ => true
  | .name _ => true
  | _ => false

/-- The PDFString bytes of a packable object (unused on the default branch). -/
def pdfStringOf : PdfObj → List Nat
  | .dict s => s
  | .arr s => s
  | .integer s => s
  | .float s => s
  | .stringLiteral s => s
  | .hexLiteral s => s
  | .boolean s => s
  | .name s => s
  | _ => []

/-- Mutable state of an ObjectStreamDict relevant to AddObject:
prolog bytes, decoded content bytes, and the object counter. -/
structure OStm where
  prolog : List Nat
  content : List Nat
  objCount : Nat
deriving DecidableEq, Repr

/-- Decimal ASCII bytes of a natural number, as produced by fmt.Sprintf "%d". -/
def decBytes (n : Nat) : List Nat :=
  (toString n).toList.map Char.toNat

/-- The "objNr offset" prolog pair appended by AddObject: space separated
from the previous pair when ObjCount > 0. -/
def pairBytes (objCount objNumber offset : Nat) : List Nat :=
  (if objCount > 0 then [32] else []) ++ decBytes objNumber ++ [32] ++ decBytes offset

/-- Shallow embedding of ObjectStreamDict.AddObject.  The receiver is
mutated in place in Go, so the embedding returns the post-call state
together with the optional error. -/
def AddObject (st : OStm) (objNumber : Nat) (obj : PdfObj) : OStm × Option (List Nat) :=
  let offset := st.content.length
  let st1 : OStm := { st with prolog := st.prolog ++ pairBytes st.objCount objNumber offset }
  if isPackable obj then
    ({ st1 with content := st1.content ++ pdfStringOf obj, objCount := st1.objCount + 1 }, none)
  else
    (st1, some (decBytes objNumber))

/-- C10: on a non-packable object AddObject returns an error, yet the
prolog has already been extended by the "objNr offset" pair (offset being
the pre-call content length), while Content and ObjCount are unchanged. -/
theorem AddObject_error_not_atomic (st : OStm) (objNumber : Nat) (obj : PdfObj)
    (h : isPackable obj = false) :
    (AddObject st objNumber obj).2.isSome = true ∧
    (AddObject st objNumber obj).1.prolog
      = st.prolog ++ pairBytes st.objCount objNumber st.content.length ∧
    (AddObject st objNumber obj).1.content = st.content ∧
    (AddObject st objNumber obj).1.objCount = st.objCount := by
  simp [AddObject, h]

/-- Witness for C10: AddObject on a stream dict at a concrete state. -/
theorem AddObject_error_not_atomic_witness :
    isPackable PdfObj.streamDict = false ∧
    ((AddObject ⟨[49], [50, 51], 1⟩ 7 PdfObj.streamDict).2.isSome = true ∧
     (AddObject ⟨[49], [50, 51], 1⟩ 7 PdfObj.streamDict).1.prolog
       = [49] ++ pairBytes 1 7 2 ∧
     (AddObject ⟨[49], [50, 51], 1⟩ 7 PdfObj.streamDict).1.content = [50, 51] ∧
     (AddObject ⟨[49], [50, 51], 1⟩ 7 PdfObj.streamDict).1.objCount = 1) :=
  ⟨rfl, AddObject_error_not_atomic ⟨[49], [50, 51], 1⟩ 7 PdfObj.streamDict rfl⟩

end PdfOStm

namespace PdfFid

/-- Shallow embedding of ensureFileID (write.go).  `fileID` abstracts the
external digest computation `fileID(ctx)`; `idArr` is ctx.ID (nil pointer
modelled as none).  The function returns the resulting ID array.  In Go the
two-element case mutates the existing array at index 1 only; the error case
performs no mutation, which the functional embedding reflects by returning
the error before producing any array. -/
def ensureFileID {α : Type} (fileID : Except String α) (idArr : Option (List α)) :
    Except String (List α) := do
  let fid ← fileID
  match idArr with
  | none => pure [fid, fid]
  | some arr =>
      if arr.length ≠ 2 then
        throw "ID must be an array with 2 elements"
      else
        pure (arr.set 1 fid)

/-- C8: ensureFileID sets a fresh two-element ID on initial writes, updates
only element 1 when the ID already has two elements, and fails without
touching the array on any other length. -/
theorem ensureFileID_spec {α : Type} (fid : α) (fileID : Except String α)
    (hf : fileID = Except.ok fid) (idArr : Option (List α)) :
    (idArr = none → ensureFileID fileID idArr = Except.ok [fid, fid]) ∧
    (∀ a b, idArr = some [a, b] →
      ensureFileID fileID idArr = Except.ok [a, fid]) ∧
    (∀ arr, idArr = some arr → arr.length ≠ 2 →
      ensureFileID fileID idArr = Except.error "ID must be an array with 2 elements") := by
  subst hf
  refine ⟨?_, ?_, ?_⟩
  · rintro rfl
    rfl
  · rintro a b rfl
    rfl
  · rintro arr rfl hlen
    simp [ensureFileID, Except.bind, hlen]
    rfl

/-- Witness for C8 at a concrete two-element ID array. -/
theorem ensureFileID_spec_witness :
    ((Except.ok 9 : Except String Nat) = Except.ok 9) ∧
    ((some [4, 5] = (none : Option (List Nat)) →
        ensureFileID (Except.ok 9) (some [4, 5]) = Except.ok [9, 9]) ∧
     (∀ a b, (some [4, 5] : Option (List Nat)) = some [a, b] →
        ensureFileID (Except.ok 9) (some [4, 5]) = Except.ok [a, 9]) ∧
     (∀ arr, (some [4, 5] : Option (List Nat)) = some arr → arr.length ≠ 2 →
        ensureFileID (Except.ok 9) (some [4, 5])
          = Except.error "ID must be an array with 2 elements")) :=
  ⟨rfl, ensureFileID_spec 9 (Except.ok 9) rfl (some [4, 5])⟩

end PdfFid

namespace PdfEnc

/-- Write modes distinguished by handleEncryption; all remaining modes
behave identically there and are collapsed into `other`. -/
inductive Mode where
  | encrypt
  | decrypt
  | addPermissions
  | other
deriving DecidableEq, Repr

/-- The fields of ctx.E touched by setupEncryption/updateEncryption:
owner value O, user value U, the first File ID element, permissions P. -/
structure EInfo where
  o : List Nat
  u : List Nat
  idb : List Nat
  p : Int
deriving DecidableEq, Repr

/-- The Context fields read or written by handleEncryption and its callees.
ctx.Encrypt is an optional indirect ref (objNr, genNr); ctx.EncKey an
optional byte key; usingXRefStreams is ctx.Read.UsingXRefStreams. -/
structure EncCtx where
  mode : Mode
  encryptRef : Option (Nat × Nat)
  encKey : Option (List Nat)
  e : Option EInfo
  id : Option (List (List Nat))
  userPW : String
  ownerPW : String
  userPWNew : Option String
  ownerPWNew : Option String
  userAccessPermissions : Int
  usingXRefStreams : Bool
  writeObjectStream : Bool
  writeXRefStream : Bool
deriving DecidableEq, Repr

/-- External primitives consumed by the encryption flow (spec section 6):
newEncryptDict+supportedEncryption, IDFirstElement, the o and u password
value computations (u also yields the encryption key), the xref-table
insertion InsertAndUseRecycled (only its returned object number is
observable in this model), and the EncryptDict lookup. -/
structure EncPrims where
  suppE : EncCtx → Except String EInfo
  idFirst : EncCtx → Except String (List Nat)
  oFun : EncCtx → Except String (List Nat)
  uFun : EncCtx → Except String (List Nat × List Nat)
  insertRec : EncCtx → Except String Nat
  encDict : EncCtx → Except String Unit

/-- Shallow embedding of setupEncryption (write.go): builds ctx.E, requires
ctx.ID, computes O then U/EncKey, installs the encrypt dict via
InsertAndUseRecycled and records ctx.Encrypt as (objNumber, 0). -/
def setupEncryption (pr : EncPrims) (c0 : EncCtx) : Except String EncCtx :=
  match pr.suppE c0 with
  | .error e => .error e
  | .ok ei =>
    if ({ c0 with e := some ei } : EncCtx).id = none then .error "encrypt: missing ID"
    else
      match pr.idFirst { c0 with e := some ei } with
      | .error e => .error e
      | .ok idb =>
        match pr.oFun { c0 with e := some { ei with idb := idb } } with
        | .error e => .error e
        | .ok ov =>
          match pr.uFun { c0 with e := some { ei with idb := idb, o := ov } } with
          | .error e => .error e
          | .ok uv =>
            match pr.insertRec { c0 with
                e := some { ei with idb := idb, o := ov, u := uv.1 },
                encKey := some uv.2 } with
            | .error e => .error e
            | .ok objNumber =>
              .ok { c0 with
                e := some { ei with idb := idb, o := ov, u := uv.1 },
                encKey := some uv.2,
                encryptRef := some (objNumber, 0) }

/-- Permissions update performed by updateEncryption for ADDPERMISSIONS. -/
def applyPerms (c : EncCtx) : EncCtx :=
  if c.mode = Mode.addPermissions
  then { c with e := c.e.map (fun x => { x with p := c.userAccessPermissions }) }
  else c

/-- User password change performed by updateEncryption when UserPWNew is set. -/
def applyUserPW (c : EncCtx) : EncCtx :=
  match c.userPWNew with
  | some pw => { c with userPW := pw }
  | none => c

/-- Owner password change performed by updateEncryption when OwnerPWNew is set. -/
def applyOwnerPW (c : EncCtx) : EncCtx :=
  match c.ownerPWNew with
  | some pw => { c with ownerPW := pw }
  | none => c

/-- Shallow embedding of updateEncryption (write.go): locates the Encrypt
dict, updates permissions for ADDPERMISSIONS, installs new passwords,
recomputes O and U/EncKey. -/
def updateEncryption (pr : EncPrims) (c0 : EncCtx) : Except String EncCtx :=
  match pr.encDict c0 with
  | .error e => .error e
  | .ok _ =>
    match pr.oFun (applyOwnerPW (applyUserPW (applyPerms c0))) with
    | .error e => .error e
    | .ok ov =>
      match pr.uFun { applyOwnerPW (applyUserPW (applyPerms c0)) with
          e := (applyOwnerPW (applyUserPW (applyPerms c0))).e.map
                 (fun x => { x with o := ov }) } with
      | .error e => .error e
      | .ok uv =>
        .ok { applyOwnerPW (applyUserPW (applyPerms c0)) with
          e := (applyOwnerPW (applyUserPW (applyPerms c0))).e.map
                 (fun x => { x with o := ov, u := uv.1 }),
          encKey := some uv.2 }

theorem applyPerms_pres (c : EncCtx) :
    (applyPerms c).writeObjectStream = c.writeObjectStream ∧
    (applyPerms c).writeXRefStream = c.writeXRefStream ∧
    (applyPerms c).usingXRefStreams = c.usingXRefStreams := by
  unfold applyPerms; split <;> exact ⟨rfl, rfl, rfl⟩

theorem applyUserPW_pres (c : EncCtx) :
    (applyUserPW c).writeObjectStream = c.writeObjectStream ∧
    (applyUserPW c).writeXRefStream = c.writeXRefStream ∧
    (applyUserPW c).usingXRefStreams = c.usingXRefStreams := by
  unfold applyUserPW; cases c.userPWNew <;> exact ⟨rfl, rfl, rfl⟩

theorem applyOwnerPW_pres (c : EncCtx) :
    (applyOwnerPW c).writeObjectStream = c.writeObjectStream ∧
    (applyOwnerPW c).writeXRefStream = c.writeXRefStream ∧
    (applyOwnerPW c).usingXRefStreams = c.usingXRefStreams := by
  unfold applyOwnerPW; cases c.ownerPWNew <;> exact ⟨rfl, rfl, rfl⟩

/-- Shallow embedding of handleEncryption (write.go): mode dispatch, then
the final rule that disables object-stream packing and xref-stream output
when encryption is active and the input used a classical xref section. -/
def handleEncryption (pr : EncPrims) (c0 : EncCtx) : Except String EncCtx :=
  let disp : Except String EncCtx :=
    if c0.mode = Mode.encrypt ∨ c0.mode = Mode.decrypt then
      if c0.mode = Mode.decrypt then .ok { c0 with encKey := none }
      else setupEncryption pr c0
    else if c0.userPWNew.isSome ∨ c0.ownerPWNew.isSome ∨ c0.mode = Mode.addPermissions then
      updateEncryption pr c0
    else .ok c0
  match disp with
  | .error e => .error e
  | .ok c =>
    if c.encryptRef.isSome ∧ c.encKey.isSome ∧ ¬ c.usingXRefStreams then
      .ok { c with writeObjectStream := false, writeXRefStream := false }
    else
      .ok c

theorem setupEncryption_pres (pr : EncPrims) (c0 c1 : EncCtx)
    (h : setupEncryption pr c0 = Except.ok c1) :
    c1.writeObjectStream = c0.writeObjectStream ∧
    c1.writeXRefStream = c0.writeXRefStream ∧
    c1.usingXRefStreams = c0.usingXRefStreams := by
  unfold setupEncryption at h
  split at h
  · cases h
  · split at h
    · cases h
    · split at h
      · cases h
      · split at h
        · cases h
        · split at h
          · cases h
          · split at h
            · cases h
            · cases h
              exact ⟨rfl, rfl, rfl⟩

theorem updateEncryption_pres (pr : EncPrims) (c0 c1 : EncCtx)
    (h : updateEncryption pr c0 = Except.ok c1) :
    c1.writeObjectStream = c0.writeObjectStream ∧
    c1.writeXRefStream = c0.writeXRefStream ∧
    c1.usingXRefStreams = c0.usingXRefStreams := by
  have p3 : (applyOwnerPW (applyUserPW (applyPerms c0))).writeObjectStream
        = c0.writeObjectStream ∧
      (applyOwnerPW (applyUserPW (applyPerms c0))).writeXRefStream
        = c0.writeXRefStream ∧
      (applyOwnerPW (applyUserPW (applyPerms c0))).usingXRefStreams
        = c0.usingXRefStreams := by
    refine ⟨?_, ?_, ?_⟩
    · rw [(applyOwnerPW_pres _).1, (applyUserPW_pres _).1, (applyPerms_pres _).1]
    · rw [(applyOwnerPW_pres _).2.1, (applyUserPW_pres _).2.1, (applyPerms_pres _).2.1]
    · rw [(applyOwnerPW_pres _).2.2, (applyUserPW_pres _).2.2, (applyPerms_pres _).2.2]
  unfold updateEncryption at h
  split at h
  · cases h
  · split at h
    · cases h
    · split at h
      · cases h
      · cases h
        exact p3

/-- C7: after a successful handleEncryption, if encryption is active
(ctx.Encrypt and ctx.EncKey both set) and the input used a classical xref
section (Read.UsingXRefStreams false), both WriteObjectStream and
WriteXRefStream are false; in every other case both flags keep the values
they had on entry.  The UsingXRefStreams input flag is never modified. -/
theorem handleEncryption_flags (pr : EncPrims) (c0 c1 : EncCtx)
    (h : handleEncryption pr c0 = Except.ok c1) :
    c1.usingXRefStreams = c0.usingXRefStreams ∧
    ((c1.encryptRef.isSome = true ∧ c1.encKey.isSome = true ∧ c1.usingXRefStreams = false) →
      c1.writeObjectStream = false ∧ c1.writeXRefStream = false) ∧
    (¬(c1.encryptRef.isSome = true ∧ c1.encKey.isSome = true ∧ c1.usingXRefStreams = false) →
      c1.writeObjectStream = c0.writeObjectStream ∧ c1.writeXRefStream = c0.writeXRefStream) := by
  have main : ∀ c : EncCtx,
      c.writeObjectStream = c0.writeObjectStream →
      c.writeXRefStream = c0.writeXRefStream →
      c.usingXRefStreams = c0.usingXRefStreams →
      ((if c.encryptRef.isSome ∧ c.encKey.isSome ∧ ¬ c.usingXRefStreams then
          Except.ok (ε := String) { c with writeObjectStream := false, writeXRefStream := false }
        else
          Except.ok c) = Except.ok c1) →
      c1.usingXRefStreams = c0.usingXRefStreams ∧
      ((c1.encryptRef.isSome = true ∧ c1.encKey.isSome = true ∧ c1.usingXRefStreams = false) →
        c1.writeObjectStream = false ∧ c1.writeXRefStream = false) ∧
      (¬(c1.encryptRef.isSome = true ∧ c1.encKey.isSome = true ∧ c1.usingXRefStreams = false) →
        c1.writeObjectStream = c0.writeObjectStream ∧
        c1.writeXRefStream = c0.writeXRefStream) := by
    intro c hw hx hu hif
    by_cases hcond : c.encryptRef.isSome ∧ c.encKey.isSome ∧ ¬ c.usingXRefStreams
    · rw [if_pos hcond] at hif
      cases hif
      refine ⟨hu, fun _ => ⟨rfl, rfl⟩, fun hn => absurd ⟨hcond.1, hcond.2.1, ?_⟩ hn⟩
      simpa using hcond.2.2
    · rw [if_neg hcond] at hif
      cases hif
      refine ⟨hu, fun hc => absurd ⟨hc.1, hc.2.1, ?_⟩ hcond, fun _ => ⟨hw, hx⟩⟩
      simpa using hc.2.2
  unfold handleEncryption at h
  by_cases h1 : c0.mode = Mode.encrypt ∨ c0.mode = Mode.decrypt
  · rw [if_pos h1] at h
    by_cases h2 : c0.mode = Mode.decrypt
    · rw [if_pos h2] at h
      exact main { c0 with encKey := none } rfl rfl rfl h
    · rw [if_neg h2] at h
      cases hs : setupEncryption pr c0 with
      | error e => rw [hs] at h; cases h
      | ok cmid =>
        rw [hs] at h
        have hp := setupEncryption_pres pr c0 cmid hs
        exact main cmid hp.1 hp.2.1 hp.2.2 h
  · rw [if_neg h1] at h
    by_cases h3 : c0.userPWNew.isSome ∨ c0.ownerPWNew.isSome ∨ c0.mode = Mode.addPermissions
    · rw [if_pos h3] at h
      cases hu : updateEncryption pr c0 with
      | error e => rw [hu] at h; cases h
      | ok cmid =>
        rw [hu] at h
        have hp := updateEncryption_pres pr c0 cmid hu
        exact main cmid hp.1 hp.2.1 hp.2.2 h
    · rw [if_neg h3] at h
      exact main c0 rfl rfl rfl h

/-- Concrete primitives for the C7 witness. -/
def prW : EncPrims :=
  { suppE := fun _ => Except.ok ⟨[], [], [], 0⟩
    idFirst := fun _ => Except.ok []
    oFun := fun _ => Except.ok [1]
    uFun := fun _ => Except.ok ([2], [3])
    insertRec := fun _ => Except.ok 12
    encDict := fun _ => Except.ok () }

/-- Concrete input context for the C7 witness: DECRYPT on an encrypted
document that used a classical xref section. -/
def cW : EncCtx :=
  { mode := Mode.decrypt
    encryptRef := some (9, 0)
    encKey := some [7]
    e := none
    id := some [[1], [1]]
    userPW := ""
    ownerPW := ""
    userPWNew := none
    ownerPWNew := none
    userAccessPermissions := 0
    usingXRefStreams := false
    writeObjectStream := true
    writeXRefStream := true }

/-- Witness for C7: DECRYPT clears EncKey, so the final rule does not fire
and both flags keep their input values. -/
theorem handleEncryption_flags_witness :
    handleEncryption prW cW = Except.ok { cW with encKey := none } ∧
    (({ cW with encKey := none } : EncCtx).usingXRefStreams = cW.usingXRefStreams ∧
     ((({ cW with encKey := none } : EncCtx).encryptRef.isSome = true ∧
       ({ cW with encKey := none } : EncCtx).encKey.isSome = true ∧
       ({ cW with encKey := none } : EncCtx).usingXRefStreams = false) →
       ({ cW with encKey := none } : EncCtx).writeObjectStream = false ∧
       ({ cW with encKey := none } : EncCtx).writeXRefStream = false) ∧
     (¬(({ cW with encKey := none } : EncCtx).encryptRef.isSome = true ∧
        ({ cW with encKey := none } : EncCtx).encKey.isSome = true ∧
        ({ cW with encKey := none } : EncCtx).usingXRefStreams = false) →
       ({ cW with encKey := none } : EncCtx).writeObjectStream = cW.writeObjectStream ∧
       ({ cW with encKey := none } : EncCtx).writeXRefStream = cW.writeXRefStream)) :=
  ⟨rfl, handleEncryption_flags prW cW { cW with encKey := none } rfl⟩

end PdfEnc

namespace PdfCnt

/-- The Context fields optimizeFontAndImages reads or writes around the
page-count checks: ctx.PageCount, the Optimized flag set by
OptimizeXRefTable, and an abstract remainder `rest` mutated only by the
page-tree walk and the stats pass. -/
structure CCtx (R : Type) where
  pageCount : Int
  optimized : Bool
  rest : R

/-- Shallow embedding of optimizeFontAndImages (optimize.go).  `pages`
abstracts ctx.Pages(), `derefDict` abstracts XRefTable.DereferenceDict,
`intEntry` abstracts pageTreeRootDict.IntEntry "Count", and `walk`
abstracts the parsePagesDict traversal together with calcRedundantObjects
(including the PageFonts/PageImages environment preparation). -/
def optimizeFontAndImages {R D P : Type}
    (pages : Except String P)
    (derefDict : P → Except String D)
    (intEntry : D → Option Int)
    (walk : CCtx R → Except String (CCtx R))
    (c : CCtx R) : Except String (CCtx R) :=
  match pages with
  | .error e => .error e
  | .ok indRefPages =>
    match derefDict indRefPages with
    | .error e => .error e
    | .ok pageTreeRootDict =>
      match intEntry pageTreeRootDict with
      | none => .error "optimizeFontAndImagess: missing Count in page root dict"
      | some pageCount =>
        if c.pageCount > 0 ∧ c.pageCount ≠ pageCount then
          .error "optimizeFontAndImagess: unexpected page root dict pageCount discrepancy"
        else
          walk (if c.pageCount = 0 then { c with pageCount := pageCount } else c)

/-- Shallow embedding of OptimizeXRefTable (optimize.go): run
optimizeFontAndImages, then the binary-size stats pass (abstracted as
`calcBS`), then set ctx.Optimized. -/
def OptimizeXRefTable {R D P : Type}
    (pages : Except String P)
    (derefDict : P → Except String D)
    (intEntry : D → Option Int)
    (walk : CCtx R → Except String (CCtx R))
    (calcBS : CCtx R → Except String (CCtx R))
    (c : CCtx R) : Except String (CCtx R) :=
  match optimizeFontAndImages pages derefDict intEntry walk c with
  | .error e => .error e
  | .ok c1 =>
    match calcBS c1 with
    | .error e => .error e
    | .ok c2 => .ok { c2 with optimized := true }

/-- C9: when the page-tree root has no Count entry optimizeFontAndImages
(and hence OptimizeXRefTable) fails; when ctx.PageCount is positive and
differs from Count it fails with the discrepancy error; when ctx.PageCount
is zero it proceeds into the page-tree walk with PageCount set to Count. -/
theorem optimizeFontAndImages_pageCount {R D P : Type}
    (pages : Except String P) (derefDict : P → Except String D)
    (intEntry : D → Option Int)
    (walk calcBS : CCtx R → Except String (CCtx R))
    (c : CCtx R) (p : P) (root : D)
    (hp : pages = Except.ok p) (hd : derefDict p = Except.ok root) :
    (intEntry root = none →
      optimizeFontAndImages pages derefDict intEntry walk c
        = Except.error "optimizeFontAndImagess: missing Count in page root dict" ∧
      OptimizeXRefTable pages derefDict intEntry walk calcBS c
        = Except.error "optimizeFontAndImagess: missing Count in page root dict") ∧
    (∀ n, intEntry root = some n → c.pageCount > 0 → c.pageCount ≠ n →
      optimizeFontAndImages pages derefDict intEntry walk c
        = Except.error "optimizeFontAndImagess: unexpected page root dict pageCount discrepancy" ∧
      OptimizeXRefTable pages derefDict intEntry walk calcBS c
        = Except.error "optimizeFontAndImagess: unexpected page root dict pageCount discrepancy") ∧
    (∀ n, intEntry root = some n → c.pageCount = 0 →
      optimizeFontAndImages pages derefDict intEntry walk c
        = walk { c with pageCount := n }) := by
  subst hp
  refine ⟨?_, ?_, ?_⟩
  · intro hn
    have h1 : optimizeFontAndImages (Except.ok p) derefDict intEntry walk c
        = Except.error "optimizeFontAndImagess: missing Count in page root dict" := by
      unfold optimizeFontAndImages
      dsimp only
      rw [hd]; dsimp only; rw [hn]
    exact ⟨h1, by unfold OptimizeXRefTable; rw [h1]⟩
  · intro n hn hpos hne
    have h1 : optimizeFontAndImages (Except.ok p) derefDict intEntry walk c
        = Except.error
            "optimizeFontAndImagess: unexpected page root dict pageCount discrepancy" := by
      unfold optimizeFontAndImages
      dsimp only
      rw [hd]; dsimp only; rw [hn]; dsimp only
      rw [if_pos ⟨hpos, hne⟩]
    exact ⟨h1, by unfold OptimizeXRefTable; rw [h1]⟩
  · intro n hn hz
    unfold optimizeFontAndImages
    dsimp only
    rw [hd]; dsimp only; rw [hn]; dsimp only
    rw [if_neg (by rw [hz]; rintro ⟨h, -⟩; exact absurd h (by norm_num)), if_pos hz]

/-- Witness for C9 at a concrete context whose PageCount is zero and a
root dict carrying Count = 3. -/
theorem optimizeFontAndImages_pageCount_witness :
    ((Except.ok 0 : Except String Nat) = Except.ok 0 ∧
     (fun _ : Nat => (Except.ok 1 : Except String Nat)) 0 = Except.ok 1) ∧
    (((fun _ : Nat => some (3 : Int)) 1 = none →
      optimizeFontAndImages (Except.ok 0) (fun _ => Except.ok 1)
          (fun _ => some 3) Except.ok (⟨0, false, ()⟩ : CCtx Unit)
        = Except.error "optimizeFontAndImagess: missing Count in page root dict" ∧
      OptimizeXRefTable (Except.ok 0) (fun _ => Except.ok 1)
          (fun _ => some 3) Except.ok Except.ok (⟨0, false, ()⟩ : CCtx Unit)
        = Except.error "optimizeFontAndImagess: missing Count in page root dict") ∧
     (∀ n, (fun _ : Nat => some (3 : Int)) 1 = some n →
        (⟨0, false, ()⟩ : CCtx Unit).pageCount > 0 →
        (⟨0, false, ()⟩ : CCtx Unit).pageCount ≠ n →
      optimizeFontAndImages (Except.ok 0) (fun _ => Except.ok 1)
          (fun _ => some 3) Except.ok (⟨0, false, ()⟩ : CCtx Unit)
        = Except.error "optimizeFontAndImagess: unexpected page root dict pageCount discrepancy" ∧
      OptimizeXRefTable (Except.ok 0) (fun _ => Except.ok 1)
          (fun _ => some 3) Except.ok Except.ok (⟨0, false, ()⟩ : CCtx Unit)
        = Except.error
            "optimizeFontAndImagess: unexpected page root dict pageCount discrepancy") ∧
     (∀ n, (fun _ : Nat => some (3 : Int)) 1 = some n →
        (⟨0, false, ()⟩ : CCtx Unit).pageCount = 0 →
      optimizeFontAndImages (Except.ok 0) (fun _ => Except.ok 1)
          (fun _ => some 3) Except.ok (⟨0, false, ()⟩ : CCtx Unit)
        = Except.ok { (⟨0, false, ()⟩ : CCtx Unit) with pageCount := n })) :=
  ⟨⟨rfl, rfl⟩,
   optimizeFontAndImages_pageCount (Except.ok 0) (fun _ => Except.ok 1)
     (fun _ => some 3) Except.ok Except.ok (⟨0, false, ()⟩ : CCtx Unit) 0 1 rfl rfl⟩

end PdfCnt

namespace PdfXw

/-- The byte-count loop computing i2 inside writeXRefStream (write.go):
shift the value right by 8 bits until it reaches zero, counting the
iterations.  All values fed to it are non-negative int64, modelled as Nat. -/
def byteCount (n : Nat) : Nat :=
  if h : n = 0 then 0 else byteCount (n / 256) + 1
termination_by n
decreasing_by exact Nat.div_lt_self (Nat.pos_of_ne_zero h) (by norm_num)

/-- The i2Base value of writeXRefStream: Size, raised to the current write
offset when that is larger. -/
def i2Base (size offset : Nat) : Nat := max size offset

/-- The field-width triple (i1, i2, i3) computed by writeXRefStream:
i1 = 1 (types 0..2 fit one byte), i2 from the loop on i2Base, i3 = 2. -/
def xrefW (size offset : Nat) : Nat × Nat × Nat :=
  (1, byteCount (i2Base size offset), 2)

/-- The little-endian accumulation loop of int64ToBuf (write.go). -/
def leBytes (n : Nat) : List Nat :=
  if h : n = 0 then [] else n % 256 :: leBytes (n / 256)
termination_by n

/-- Shallow embedding of int64ToBuf (write.go): the accumulated bytes are
reversed to big-endian and left-padded with zeros up to byteCount bytes
when shorter (a longer value is returned unpadded). -/
def int64ToBuf (i : Nat) (c : Nat) : List Nat :=
  if (leBytes i).reverse.length < c then
    List.replicate (c - (leBytes i).reverse.length) 0 ++ (leBytes i).reverse
  else
    (leBytes i).reverse

/-- One xref-stream table entry as encoded by createXRefStream (write.go):
free entries carry (nextFreeObjNr, generation), compressed entries carry
(objectStreamNr, indexWithinStream), in-use entries carry the recorded
write offset and the generation. -/
inductive XSEntry where
  | free (nextFree gen : Nat)
  | compressed (objStr ind : Nat)
  | inUse (offset gen : Nat)
deriving DecidableEq, Repr

/-- The second field of an entry, encoded with width i2. -/
def field2 : XSEntry → Nat
  | .free n _ => n
  | .compressed s _ => s
  | .inUse o _ => o

/-- The third field of an entry, encoded with width i3. -/
def field3 : XSEntry → Nat
  | .free _ g => g
  | .compressed _ x => x
  | .inUse _ g => g

/-- The bytes createXRefStream emits for one entry: type byte(s), second
field, third field, each via int64ToBuf with widths i1, i2, i3. -/
def entryBytes (i1 i2 i3 : Nat) : XSEntry → List Nat
  | .free n g => int64ToBuf 0 i1 ++ int64ToBuf n i2 ++ int64ToBuf g i3
  | .compressed s x => int64ToBuf 2 i1 ++ int64ToBuf s i2 ++ int64ToBuf x i3
  | .inUse o g => int64ToBuf 1 i1 ++ int64ToBuf o i2 ++ int64ToBuf g i3

theorem leBytes_length (n : Nat) : (leBytes n).length = byteCount n := by
  induction n using Nat.strong_induction_on with
  | _ n ih =>
    rw [leBytes, byteCount]
    by_cases h : n = 0
    · simp [h]
    · simp only [h, dif_neg, not_false_iff, List.length_cons]
      rw [ih (n / 256) (Nat.div_lt_self (Nat.pos_of_ne_zero h) (by norm_num))]

theorem byteCount_le_iff (c n : Nat) : byteCount n ≤ c ↔ n < 256 ^ c := by
  induction c generalizing n with
  | zero =>
    rw [byteCount]
    by_cases h : n = 0
    · simp [h]
    · simp [h, Nat.pos_of_ne_zero h, Nat.lt_one_iff]
  | succ c ih =>
    rw [byteCount]
    by_cases h : n = 0
    · simp [h]
    · simp only [h, dif_neg, not_false_iff, Nat.succ_le_succ_iff]
      rw [ih (n / 256), pow_succ]
      exact Nat.div_lt_iff_lt_mul (by norm_num)

theorem int64ToBuf_length (i c : Nat) (h : i < 256 ^ c) :
    (int64ToBuf i c).length = c := by
  have hl : (leBytes i).reverse.length = byteCount i := by
    rw [List.length_reverse, leBytes_length]
  have hle : byteCount i ≤ c := (byteCount_le_iff c i).mpr h
  unfold int64ToBuf
  by_cases hlt : (leBytes i).reverse.length < c
  · rw [if_pos hlt]
    rw [List.length_append, List.length_replicate]
    omega
  · rw [if_neg hlt, hl]
    omega

/-- C6 (amended): the width triple computed by writeXRefStream is
(1, w2, 2) where w2 = byteCount(max(Size, currentOffset)) is the minimal
byte width of that maximum — the least k with max(Size, currentOffset)
< 256^k — and, whenever an entry's second field fits w2 bytes and its
third field fits two bytes, the entry is emitted as exactly w1 + w2 + w3
big-endian bytes. -/
theorem xrefW_spec (size offset : Nat) (e : XSEntry)
    (hf2 : field2 e < 256 ^ (xrefW size offset).2.1)
    (hf3 : field3 e < 256 ^ 2) :
    (xrefW size offset).1 = 1 ∧
    (xrefW size offset).2.2 = 2 ∧
    i2Base size offset < 256 ^ (xrefW size offset).2.1 ∧
    (∀ k, i2Base size offset < 256 ^ k → (xrefW size offset).2.1 ≤ k) ∧
    (entryBytes (xrefW size offset).1 (xrefW size offset).2.1 (xrefW size offset).2.2 e).length
      = (xrefW size offset).1 + (xrefW size offset).2.1 + (xrefW size offset).2.2 := by
  refine ⟨rfl, rfl, ?_, ?_, ?_⟩
  · exact (byteCount_le_iff _ _).mp le_rfl
  · intro k hk
    exact (byteCount_le_iff k _).mpr hk
  · have h1 : ∀ t : Nat, t < 256 → (int64ToBuf t 1).length = 1 := by
      intro t ht
      exact int64ToBuf_length t 1 (by simpa using ht)
    have h2 : (int64ToBuf (field2 e) (xrefW size offset).2.1).length
        = (xrefW size offset).2.1 := int64ToBuf_length _ _ hf2
    have h3 : (int64ToBuf (field3 e) 2).length = 2 := int64ToBuf_length _ _ hf3
    have hw1 : (xrefW size offset).1 = 1 := rfl
    have hw3 : (xrefW size offset).2.2 = 2 := rfl
    cases e with
    | free n g =>
      simp only [field2] at h2
      simp only [field3] at h3
      simp only [entryBytes, List.length_append, hw1, hw3]
      rw [h1 0 (by norm_num), h2, h3]
    | compressed s x =>
      simp only [field2] at h2
      simp only [field3] at h3
      simp only [entryBytes, List.length_append, hw1, hw3]
      rw [h1 2 (by norm_num), h2, h3]
    | inUse o g =>
      simp only [field2] at h2
      simp only [field3] at h3
      simp only [entryBytes, List.length_append, hw1, hw3]
      rw [h1 1 (by norm_num), h2, h3]

/-- Witness for C6 (amended) at Size = 5, currentOffset = 300, on an
in-use entry with offset 123 and generation 0. -/
theorem xrefW_spec_witness :
    field2 (XSEntry.inUse 123 0) < 256 ^ (xrefW 5 300).2.1 ∧
    field3 (XSEntry.inUse 123 0) < 256 ^ 2 ∧
    ((xrefW 5 300).1 = 1 ∧
     (xrefW 5 300).2.2 = 2 ∧
     i2Base 5 300 < 256 ^ (xrefW 5 300).2.1 ∧
     (∀ k, i2Base 5 300 < 256 ^ k → (xrefW 5 300).2.1 ≤ k) ∧
     (entryBytes (xrefW 5 300).1 (xrefW 5 300).2.1 (xrefW 5 300).2.2
         (XSEntry.inUse 123 0)).length
       = (xrefW 5 300).1 + (xrefW 5 300).2.1 + (xrefW 5 300).2.2) := by
  have hw2 : (xrefW 5 300).2.1 = 2 := by
    show byteCount (i2Base 5 300) = 2
    rw [show i2Base 5 300 = 300 from rfl, byteCount]
    norm_num
    rw [byteCount]
    norm_num
    rw [byteCount]
    simp
  have hf2 : field2 (XSEntry.inUse 123 0) < 256 ^ (xrefW 5 300).2.1 := by
    rw [hw2]; norm_num [field2]
  have hf3 : field3 (XSEntry.inUse 123 0) < 256 ^ 2 := by
    norm_num [field3]
  exact ⟨hf2, hf3, xrefW_spec 5 300 (XSEntry.inUse 123 0) hf2 hf3⟩

/-- C6 counterexample: the claim computes w2 as ceil(log256 (max Size
currentOffset)).  At Size = 256, currentOffset = 1 the code's loop yields
2 bytes while ceil(log256 256) = 1, so the claimed formula disagrees with
the code at exact powers of 256. -/
theorem xrefW_w2_counterexample :
    (xrefW 256 1).2.1 = 2 ∧ Nat.clog 256 (i2Base 256 1) = 1 ∧ (2 : Nat) ≠ 1 := by
  refine ⟨?_, ?_, by norm_num⟩
  · show byteCount (i2Base 256 1) = 2
    rw [show i2Base 256 1 = 256 from rfl, byteCount]
    norm_num
    rw [byteCount]
    norm_num
    rw [byteCount]
    simp
  · rw [show i2Base 256 1 = 256 from rfl]
    exact Nat.clog_eq_one (by norm_num) le_rfl

end PdfXw

namespace PdfOpt

/-- FontObject (optimize.go): resource names used in resource dicts, the
subset prefix (Go field Prefix; named pfx here because the Go name is a
Lean keyword), the bare font name, and the font dict (type parameter D
abstracts Dict). -/
structure FontObject (D : Type) where
  resourceNames : List String
  pfx : String
  fontName : String
  fontDict : D
deriving DecidableEq, Repr

/-- ImageObject (optimize.go): resource names and the image stream dict. -/
structure ImageObject (D : Type) where
  resourceNames : List String
  imageDict : D
deriving DecidableEq, Repr

/-- The OptimizeState fields touched by font dedup: Fonts maps a bare font
name to the registered object numbers in insertion order (a Go map of
slices), FontObjects maps objNr to its FontObject, PageFonts is the
per-page set of font object numbers, DuplicateFonts collects redundant
font dicts by their object number. -/
structure OptState (D : Type) where
  fonts : String → Option (List Nat)
  fontObjects : Nat → Option (FontObject D)
  pageFonts : Nat → Nat → Bool
  duplicateFonts : Nat → Option D

/-- The OptimizeState fields touched by image dedup. -/
structure ImgState (D : Type) where
  imageObjects : Nat → Option (ImageObject D)
  pageImages : Nat → Nat → Bool
  duplicateImages : Nat → Option D

/-- The candidate loop of handleDuplicateFontObject (optimize.go) over
fonts[fontName].  On a structural match (external equalFontDicts is the
parameter eqf) it records the canonical in the page fonts, extends the
canonical FontObject's resource names (AddResourceName appends; modelled
from the spec: "add resourceName to the canonical's set"), records the
probed dict in DuplicateFonts under objNr, and returns the canonical
object number.  A candidate missing from FontObjects would be a nil
dereference in Go and is modelled as an error. -/
def hdfoLoop {D : Type} (eqf : D → D → Except String Bool) (font : D)
    (resourceName : String) (objNr pageNumber : Nat) :
    OptState D → List Nat → Except String (Option Nat × OptState D)
  | st, [] => .ok (none, st)
  | st, n :: rest =>
    match st.fontObjects n with
    | none => .error "handleDuplicateFontObject: missing FontObject"
    | some fo =>
      match eqf fo.fontDict font with
      | .error e => .error e
      | .ok false => hdfoLoop eqf font resourceName objNr pageNumber st rest
      | .ok true =>
        .ok (some n,
          { st with
            pageFonts := fun p k =>
              if p = pageNumber ∧ k = n then true else st.pageFonts p k,
            fontObjects := fun k =>
              if k = n then some { fo with resourceNames := fo.resourceNames ++ [resourceName] }
              else st.fontObjects k,
            duplicateFonts := fun k =>
              if k = objNr then some font else st.duplicateFonts k })

/-- Shallow embedding of handleDuplicateFontObject (optimize.go): look up
the candidate list under the bare font name and run the loop; an
unregistered name yields (nil, nil) with no state change. -/
def handleDuplicateFontObject {D : Type} (eqf : D → D → Except String Bool)
    (st : OptState D) (font : D) (fontName resourceName : String)
    (objNr pageNumber : Nat) : Except String (Option Nat × OptState D) :=
  match st.fonts fontName with
  | none => .ok (none, st)
  | some fontObjectNumbers =>
      hdfoLoop eqf font resourceName objNr pageNumber st fontObjectNumbers

/-- The loop of handleDuplicateImageObject (optimize.go).  Go ranges over
the ImageObjects map, whose iteration order the language leaves
unspecified; the order is therefore an explicit parameter: the key/value
pairs in the order the range yields them. -/
def hdioLoop {D : Type} (eqs : D → D → Except String Bool) (image : D)
    (resourceName : String) (objNr pageNumber : Nat) :
    ImgState D → List (Nat × ImageObject D) → Except String (Option Nat × ImgState D)
  | st, [] => .ok (none, st)
  | st, (n, io) :: rest =>
    match eqs io.imageDict image with
    | .error e => .error e
    | .ok false => hdioLoop eqs image resourceName objNr pageNumber st rest
    | .ok true =>
      .ok (some n,
        { st with
          pageImages := fun p k =>
            if p = pageNumber ∧ k = n then true else st.pageImages p k,
          imageObjects := fun k =>
            if k = n then some { io with resourceNames := io.resourceNames ++ [resourceName] }
            else st.imageObjects k,
          duplicateImages := fun k =>
            if k = objNr then some image else st.duplicateImages k })

/-- Shallow embedding of handleDuplicateImageObject (optimize.go), the map
iteration order passed explicitly. -/
def handleDuplicateImageObject {D : Type} (eqs : D → D → Except String Bool)
    (st : ImgState D) (image : D) (resourceName : String) (objNr pageNumber : Nat)
    (iter : List (Nat × ImageObject D)) : Except String (Option Nat × ImgState D) :=
  hdioLoop eqs image resourceName objNr pageNumber st iter

/-- Index of the first '+' in a font name, as strings.Index in
optimizeFontResourcesDict (none when absent, Go returns -1 there). -/
def plusIndex : List Char → Option Nat
  | [] => none
  | c :: rest => if c = '+' then some 0 else (plusIndex rest).map (· + 1)

/-- The subset-prefix isolation of optimizeFontResourcesDict: when the
first '+' sits at index i > 0, the part before it is the prefix and the
part after it the bare name; otherwise the name stays whole with an empty
prefix. -/
def splitFontName (fn : List Char) : List Char × List Char :=
  match plusIndex fn with
  | some i => if i > 0 then (fn.take i, fn.drop (i + 1)) else ([], fn)
  | none => ([], fn)

/-- A value of a Font resources dict: an indirect ref or anything else. -/
inductive RVal where
  | ref (objNr genNr : Nat)
  | other
deriving DecidableEq, Repr

/-- External operations consumed by optimizeFontResourcesDict: structural
font-dict equality, dereferencing, the Type entry of a dict, and the
fontName extraction (BaseFont / Name / Type3 logic). -/
structure StepOps (D : Type) where
  eqf : D → D → Except String Bool
  deref : Nat → Nat → Except String D
  dtype : D → Option String
  fname : D → Nat → Except String String

/-- The body of optimizeFontResourcesDict's loop (optimize.go) for one
resources-dict entry resourceName ↦ v: require an indirect ref; skip
already-registered object numbers, recording the page font; dereference
and require Type = Font; extract and split the font name; probe for a
duplicate; then either register a new FontObject under the bare name or
rewrite the resource entry to the canonical object number with
generation 0. -/
def optFontResStep {D : Type} (ops : StepOps D) (pageNumber : Nat)
    (st : OptState D) (d : String → Option RVal) (resourceName : String) :
    Except String (OptState D × (String → Option RVal)) :=
  match d resourceName with
  | none => .ok (st, d)
  | some .other => .error "optimizeFontResourcesDict: missing indirect object ref"
  | some (.ref objectNumber genNr) =>
    match st.fontObjects objectNumber with
    | some _ =>
      .ok ({ st with pageFonts := fun p k =>
               if p = pageNumber ∧ k = objectNumber then true else st.pageFonts p k }, d)
    | none =>
      match ops.deref objectNumber genNr with
      | .error e => .error e
      | .ok fontDict =>
        match ops.dtype fontDict with
        | none => .error "optimizeFontResourcesDict: missing dict type"
        | some t =>
          if t ≠ "Font" then .error "optimizeFontResourcesDict: expected Type=Font"
          else
            match ops.fname fontDict objectNumber with
            | .error e => .error e
            | .ok fn0 =>
              match handleDuplicateFontObject ops.eqf st fontDict
                  (String.mk (splitFontName fn0.toList).2)
                  resourceName objectNumber pageNumber with
              | .error e => .error e
              | .ok (none, st1) =>
                .ok ({ st1 with
                  fonts := fun k =>
                    if k = String.mk (splitFontName fn0.toList).2 then
                      match st1.fonts (String.mk (splitFontName fn0.toList).2) with
                      | some nums => some (nums ++ [objectNumber])
                      | none => some [objectNumber]
                    else st1.fonts k,
                  fontObjects := fun k =>
                    if k = objectNumber then
                      some { resourceNames := [resourceName],
                             pfx := String.mk (splitFontName fn0.toList).1,
                             fontName := String.mk (splitFontName fn0.toList).2,
                             fontDict := fontDict }
                    else st1.fontObjects k,
                  pageFonts := fun p k =>
                    if p = pageNumber ∧ k = objectNumber then true
                    else st1.pageFonts p k }, d)
              | .ok (some uniqueFontObjNr, st1) =>
                .ok (st1,
                  fun k => if k = resourceName then some (RVal.ref uniqueFontObjNr 0) else d k)

theorem hdfoLoop_none {D : Type} (eqf : D → D → Except String Bool) (font : D)
    (resourceName : String) (objNr pageNumber : Nat) :
    ∀ (l : List Nat) (st st1 : OptState D),
    hdfoLoop eqf font resourceName objNr pageNumber st l = Except.ok (none, st1) →
    st1 = st := by
  intro l
  induction l with
  | nil =>
    intro st st1 h
    simp only [hdfoLoop, Except.ok.injEq, Prod.mk.injEq, true_and] at h
    exact h.symm
  | cons n rest ih =>
    intro st st1 h
    simp only [hdfoLoop] at h
    cases hfo : st.fontObjects n with
    | none => simp only [hfo] at h; cases h
    | some fo =>
      simp only [hfo] at h
      cases heq : eqf fo.fontDict font with
      | error e => simp only [heq] at h; cases h
      | ok b =>
        rw [heq] at h
        cases b with
        | false =>
          dsimp only at h
          exact ih st st1 h
        | true =>
          dsimp only at h
          simp only [Except.ok.injEq, Prod.mk.injEq] at h
          exact Option.noConfusion h.1

theorem hdfoLoop_some {D : Type} (eqf : D → D → Except String Bool) (font : D)
    (resourceName : String) (objNr pageNumber : Nat) :
    ∀ (l : List Nat) (st st1 : OptState D) (nr : Nat),
    hdfoLoop eqf font resourceName objNr pageNumber st l = Except.ok (some nr, st1) →
    ∃ l1 l2 fo,
      l = l1 ++ nr :: l2 ∧
      (∀ m ∈ l1, ∃ fom, st.fontObjects m = some fom ∧
          eqf fom.fontDict font = Except.ok false) ∧
      st.fontObjects nr = some fo ∧
      eqf fo.fontDict font = Except.ok true ∧
      st1.duplicateFonts objNr = some font ∧
      st1.fontObjects nr
        = some { fo with resourceNames := fo.resourceNames ++ [resourceName] } ∧
      st1.pageFonts pageNumber nr = true ∧
      st1.fonts = st.fonts := by
  intro l
  induction l with
  | nil =>
    intro st st1 nr h
    simp only [hdfoLoop, Except.ok.injEq, Prod.mk.injEq] at h
    exact Option.noConfusion h.1
  | cons n rest ih =>
    intro st st1 nr h
    simp only [hdfoLoop] at h
    cases hfo : st.fontObjects n with
    | none => simp only [hfo] at h; cases h
    | some fo =>
      simp only [hfo] at h
      cases heq : eqf fo.fontDict font with
      | error e => simp only [heq] at h; cases h
      | ok b =>
        rw [heq] at h
        cases b with
        | false =>
          dsimp only at h
          obtain ⟨l1, l2, fo2, hl, hall, hnr, htrue, hdup, hobj, hpf, hfonts⟩ :=
            ih st st1 nr h
          refine ⟨n :: l1, l2, fo2, by simp [hl], ?_, hnr, htrue, hdup, hobj, hpf, hfonts⟩
          intro m hm
          rcases List.mem_cons.mp hm with rfl | hm2
          · exact ⟨fo, hfo, heq⟩
          · exact hall m hm2
        | true =>
          dsimp only at h
          simp only [Except.ok.injEq, Prod.mk.injEq, Option.some.injEq] at h
          obtain ⟨rfl, rfl⟩ := h
          refine ⟨[], rest, fo, rfl, by simp, hfo, heq, by simp, by simp, by simp, rfl⟩

theorem handleDuplicateFontObject_none {D : Type} (eqf : D → D → Except String Bool)
    (st : OptState D) (font : D) (fontName resourceName : String)
    (objNr pageNumber : Nat) (st1 : OptState D)
    (h : handleDuplicateFontObject eqf st font fontName resourceName objNr pageNumber
          = Except.ok (none, st1)) :
    st1 = st := by
  unfold handleDuplicateFontObject at h
  cases hf : st.fonts fontName with
  | none =>
    simp only [hf, Except.ok.injEq, Prod.mk.injEq, true_and] at h
    exact h.symm
  | some nums =>
    simp only [hf] at h
    exact hdfoLoop_none eqf font resourceName objNr pageNumber nums st st1 h

theorem hdioLoop_some {D : Type} (eqs : D → D → Except String Bool) (image : D)
    (resourceName : String) (objNr pageNumber : Nat) :
    ∀ (l : List (Nat × ImageObject D)) (st st1 : ImgState D) (nr : Nat),
    hdioLoop eqs image resourceName objNr pageNumber st l = Except.ok (some nr, st1) →
    ∃ l1 io l2,
      l = l1 ++ (nr, io) :: l2 ∧
      (∀ q ∈ l1, eqs (Prod.snd q).imageDict image = Except.ok false) ∧
      eqs io.imageDict image = Except.ok true ∧
      st1.duplicateImages objNr = some image := by
  intro l
  induction l with
  | nil =>
    intro st st1 nr h
    simp only [hdioLoop, Except.ok.injEq, Prod.mk.injEq] at h
    exact Option.noConfusion h.1
  | cons q rest ih =>
    obtain ⟨n, io⟩ := q
    intro st st1 nr h
    simp only [hdioLoop] at h
    cases heq : eqs io.imageDict image with
    | error e => simp only [heq] at h; cases h
    | ok b =>
      rw [heq] at h
      cases b with
      | false =>
        dsimp only at h
        obtain ⟨l1, io2, l2, hl, hall, htrue, hdup⟩ := ih st st1 nr h
        refine ⟨(n, io) :: l1, io2, l2, by simp [hl], ?_, htrue, hdup⟩
        intro p hp
        rcases List.mem_cons.mp hp with rfl | hp2
        · exact heq
        · exact hall p hp2
      | true =>
        dsimp only at h
        simp only [Except.ok.injEq, Prod.mk.injEq, Option.some.injEq] at h
        obtain ⟨rfl, rfl⟩ := h
        exact ⟨[], io, rest, rfl, by simp, heq, by simp⟩

/-- C3: whenever a step of optimizeFontResourcesDict newly records
objectNumber in DuplicateFonts, a previously registered font object exists
under the same bare name whose dict equalFontDicts accepts against the
probed font dict; the canonical FontObject's resource-name list is
extended by the resource name, and the resource entry is rewritten to an
indirect ref (canonical objNr, generation 0). -/
theorem dedup_soundness {D : Type} (ops : StepOps D) (pageNumber : Nat)
    (st st' : OptState D) (d d' : String → Option RVal)
    (resourceName : String) (objectNumber genNr : Nat) (fontDict f : D) (fn0 : String)
    (hv : d resourceName = some (RVal.ref objectNumber genNr))
    (hnew : st.fontObjects objectNumber = none)
    (hderef : ops.deref objectNumber genNr = Except.ok fontDict)
    (htype : ops.dtype fontDict = some "Font")
    (hname : ops.fname fontDict objectNumber = Except.ok fn0)
    (hstep : optFontResStep ops pageNumber st d resourceName = Except.ok (st', d'))
    (hd0 : st.duplicateFonts objectNumber = none)
    (hd1 : st'.duplicateFonts objectNumber = some f) :
    ∃ nums nr fo,
      st.fonts (String.mk (splitFontName fn0.toList).2) = some nums ∧
      nr ∈ nums ∧
      st.fontObjects nr = some fo ∧
      ops.eqf fo.fontDict fontDict = Except.ok true ∧
      f = fontDict ∧
      st'.fontObjects nr
        = some { fo with resourceNames := fo.resourceNames ++ [resourceName] } ∧
      d' resourceName = some (RVal.ref nr 0) := by
  unfold optFontResStep at hstep
  simp only [hv, hnew, hderef, htype, hname, ne_eq, not_true_eq_false, if_false,
    reduceIte] at hstep
  cases hp : handleDuplicateFontObject ops.eqf st fontDict
      (String.mk (splitFontName fn0.toList).2) resourceName objectNumber pageNumber with
  | error e => rw [hp] at hstep; cases hstep
  | ok pr =>
    obtain ⟨onr, st1⟩ := pr
    rw [hp] at hstep
    cases onr with
    | none =>
      dsimp only at hstep
      simp only [Except.ok.injEq, Prod.mk.injEq] at hstep
      obtain ⟨hst', hdd⟩ := hstep
      exfalso
      have hstn := handleDuplicateFontObject_none ops.eqf st fontDict
        (String.mk (splitFontName fn0.toList).2) resourceName objectNumber pageNumber st1 hp
      rw [← hst'] at hd1
      dsimp only at hd1
      rw [hstn, hd0] at hd1
      cases hd1
    | some nr =>
      dsimp only at hstep
      simp only [Except.ok.injEq, Prod.mk.injEq] at hstep
      obtain ⟨hst', hdd⟩ := hstep
      unfold handleDuplicateFontObject at hp
      cases hfk : st.fonts (String.mk (splitFontName fn0.toList).2) with
      | none =>
        simp only [hfk, Except.ok.injEq, Prod.mk.injEq] at hp
        exact Option.noConfusion hp.1
      | some nums =>
        simp only [hfk] at hp
        obtain ⟨l1, l2, fo, hl, hall, hnr, htrue, hdup, hobj, hpf, hfonts⟩ :=
          hdfoLoop_some ops.eqf fontDict resourceName objectNumber pageNumber
            nums st st1 nr hp
        refine ⟨nums, nr, fo, rfl, by simp [hl], hnr, htrue, ?_, ?_, ?_⟩
        · rw [← hst'] at hd1
          rw [hdup] at hd1
          exact (Option.some.injEq _ _ ▸ hd1).symm
        · rw [← hst']
          exact hobj
        · rw [← hdd]
          simp

/-- C4 (amended): the font probe returns the first structurally equal
candidate of fonts[fontName] in insertion (slice) order, so the font
choice is deterministic given the input; the image probe returns the first
structurally equal candidate in the supplied map iteration order — an
order the Go language does not fix — so the image choice is
first-registered only relative to that order. -/
theorem dedup_tie_breaking {D : Type} (eqf eqs : D → D → Except String Bool)
    (font image : D) (resourceName resourceName2 : String)
    (objNr pageNumber objNr2 pageNumber2 : Nat)
    (st st1 : OptState D) (fontName : String) (nums : List Nat) (nr : Nat)
    (ist ist1 : ImgState D) (iter : List (Nat × ImageObject D)) (nr2 : Nat)
    (hfonts : st.fonts fontName = some nums)
    (hf : handleDuplicateFontObject eqf st font fontName resourceName objNr pageNumber
            = Except.ok (some nr, st1))
    (hi : handleDuplicateImageObject eqs ist image resourceName2 objNr2 pageNumber2 iter
            = Except.ok (some nr2, ist1)) :
    (∃ l1 l2, nums = l1 ++ nr :: l2 ∧
       ∀ m ∈ l1, ∃ fom, st.fontObjects m = some fom ∧
          eqf fom.fontDict font = Except.ok false) ∧
    (∃ l1 io l2, iter = l1 ++ (nr2, io) :: l2 ∧
       ∀ q ∈ l1, eqs (Prod.snd q).imageDict image = Except.ok false) := by
  constructor
  · unfold handleDuplicateFontObject at hf
    rw [hfonts] at hf
    dsimp only at hf
    obtain ⟨l1, l2, fo, hl, hall, -, -, -, -, -, -⟩ :=
      hdfoLoop_some eqf font resourceName objNr pageNumber nums st st1 nr hf
    exact ⟨l1, l2, hl, hall⟩
  · unfold handleDuplicateImageObject at hi
    obtain ⟨l1, io, l2, hl, hall, -, -⟩ :=
      hdioLoop_some eqs image resourceName2 objNr2 pageNumber2 iter ist ist1 nr2 hi
    exact ⟨l1, io, l2, hl, hall⟩

/-- C5: the name extracted by fontName is split at the first '+': with
that '+' at index i > 0 the recorded prefix is fn[0..i) and the bare dedup
key fn[i+1..); with '+' absent or at index 0 the prefix is empty and the
key the whole name; the newly registered FontObject carries exactly this
prefix and key and is registered in the fonts map under the key. -/
theorem subset_prefix_normalization {D : Type} (ops : StepOps D) (pageNumber : Nat)
    (st st1 st' : OptState D) (d d' : String → Option RVal)
    (resourceName : String) (objectNumber genNr : Nat) (fontDict : D) (fn0 : String)
    (hv : d resourceName = some (RVal.ref objectNumber genNr))
    (hnew : st.fontObjects objectNumber = none)
    (hderef : ops.deref objectNumber genNr = Except.ok fontDict)
    (htype : ops.dtype fontDict = some "Font")
    (hname : ops.fname fontDict objectNumber = Except.ok fn0)
    (hprobe : handleDuplicateFontObject ops.eqf st fontDict
        (String.mk (splitFontName fn0.toList).2) resourceName objectNumber pageNumber
        = Except.ok (none, st1))
    (hstep : optFontResStep ops pageNumber st d resourceName = Except.ok (st', d')) :
    (∀ i, plusIndex fn0.toList = some i → 0 < i →
        splitFontName fn0.toList = (fn0.toList.take i, fn0.toList.drop (i + 1))) ∧
    ((plusIndex fn0.toList = none ∨ plusIndex fn0.toList = some 0) →
        splitFontName fn0.toList = ([], fn0.toList)) ∧
    st'.fontObjects objectNumber
      = some { resourceNames := [resourceName],
               pfx := String.mk (splitFontName fn0.toList).1,
               fontName := String.mk (splitFontName fn0.toList).2,
               fontDict := fontDict } ∧
    (∃ nums, st'.fonts (String.mk (splitFontName fn0.toList).2) = some nums ∧
        objectNumber ∈ nums) := by
  refine ⟨?_, ?_, ?_⟩
  · intro i hi hpos
    unfold splitFontName
    rw [hi]
    dsimp only
    rw [if_pos hpos]
  · intro hcase
    unfold splitFontName
    rcases hcase with hn | h0
    · rw [hn]
    · rw [h0]
      simp
  · unfold optFontResStep at hstep
    simp only [hv, hnew, hderef, htype, hname, ne_eq, not_true_eq_false, if_false,
      reduceIte] at hstep
    rw [hprobe] at hstep
    dsimp only at hstep
    simp only [Except.ok.injEq, Prod.mk.injEq] at hstep
    obtain ⟨hst', hdd⟩ := hstep
    constructor
    · rw [← hst']
      simp
    · rw [← hst']
      dsimp only
      rw [if_pos rfl]
      cases hfk : st1.fonts (String.mk (splitFontName fn0.toList).2) with
      | none => exact ⟨[objectNumber], rfl, by simp⟩
      | some nums => exact ⟨nums ++ [objectNumber], rfl, by simp⟩

/-- Structural equality on the Nat stand-in for dicts, for the concrete
witnesses. -/
def eqNat : Nat → Nat → Except String Bool := fun a b => Except.ok (a == b)

/-- Concrete registered font object for the witnesses. -/
def foEx : FontObject Nat := ⟨["F0"], "", "F", 7⟩

/-- Concrete optimize state: one font registered under bare name "F" at
object number 3. -/
def stEx : OptState Nat :=
  { fonts := fun k => if k = "F" then some [3] else none
    fontObjects := fun k => if k = 3 then some foEx else none
    pageFonts := fun _ _ => false
    duplicateFonts := fun _ => none }

/-- stEx after a successful duplicate probe of object 10 against the
canonical 3 with resource name "F1". -/
def stEx1 : OptState Nat :=
  { fonts := stEx.fonts
    fontObjects := fun k =>
      if k = 3 then some { foEx with resourceNames := foEx.resourceNames ++ ["F1"] }
      else stEx.fontObjects k
    pageFonts := fun p k => if p = 0 ∧ k = 3 then true else stEx.pageFonts p k
    duplicateFonts := fun k => if k = 10 then some 7 else stEx.duplicateFonts k }

/-- Concrete step operations: dereferencing always yields the dict 7 whose
type is Font and whose extracted name is "ABCDEF+F". -/
def opsEx : StepOps Nat :=
  { eqf := eqNat
    deref := fun _ _ => Except.ok 7
    dtype := fun _ => some "Font"
    fname := fun _ _ => Except.ok "ABCDEF+F" }

/-- Concrete resources dict: entry "F1" refers to object 10. -/
def dEx : String → Option RVal :=
  fun k => if k = "F1" then some (RVal.ref 10 0) else none

/-- dEx after the rewrite of entry "F1" to the canonical object 3. -/
def dEx1 : String → Option RVal :=
  fun k => if k = "F1" then some (RVal.ref 3 0) else dEx k

/-- Witness for C3 at the concrete state: probing object 10 (name
ABCDEF+F, bare key F) against the registered object 3. -/
theorem dedup_soundness_witness :
    dEx "F1" = some (RVal.ref 10 0) ∧
    stEx.fontObjects 10 = none ∧
    opsEx.deref 10 0 = Except.ok 7 ∧
    opsEx.dtype 7 = some "Font" ∧
    opsEx.fname 7 10 = Except.ok "ABCDEF+F" ∧
    optFontResStep opsEx 0 stEx dEx "F1" = Except.ok (stEx1, dEx1) ∧
    stEx.duplicateFonts 10 = none ∧
    stEx1.duplicateFonts 10 = some 7 ∧
    (∃ nums nr fo,
      stEx.fonts (String.mk (splitFontName "ABCDEF+F".toList).2) = some nums ∧
      nr ∈ nums ∧
      stEx.fontObjects nr = some fo ∧
      opsEx.eqf fo.fontDict 7 = Except.ok true ∧
      (7 : Nat) = 7 ∧
      stEx1.fontObjects nr
        = some { fo with resourceNames := fo.resourceNames ++ ["F1"] } ∧
      dEx1 "F1" = some (RVal.ref nr 0)) :=
  ⟨rfl, rfl, rfl, rfl, rfl, rfl, rfl, rfl,
   dedup_soundness opsEx 0 stEx stEx1 dEx dEx1 "F1" 10 0 7 7 "ABCDEF+F"
     rfl rfl rfl rfl rfl rfl rfl rfl⟩

/-- Concrete image objects for C4: identical dicts at objNr 3 and 5. -/
def ioA : ImageObject Nat := ⟨["I0"], 7⟩

/-- Second image object, structurally equal to ioA. -/
def ioB : ImageObject Nat := ⟨["I1"], 7⟩

/-- Image state with 3 registered first and 5 second. -/
def istEx : ImgState Nat :=
  { imageObjects := fun k => if k = 3 then some ioA else if k = 5 then some ioB else none
    pageImages := fun _ _ => false
    duplicateImages := fun _ => none }

/-- istEx after a probe that matched the candidate at objNr 3. -/
def istEx1 : ImgState Nat :=
  { imageObjects := fun k =>
      if k = 3 then some { ioA with resourceNames := ioA.resourceNames ++ ["I9"] }
      else istEx.imageObjects k
    pageImages := fun p k => if p = 0 ∧ k = 3 then true else istEx.pageImages p k
    duplicateImages := fun k => if k = 9 then some 7 else istEx.duplicateImages k }

/-- Witness for C4 (amended): a font probe over fonts["F"] = [3] and an
image probe in iteration order [(3, _), (5, _)]. -/
theorem dedup_tie_breaking_witness :
    stEx.fonts "F" = some [3] ∧
    handleDuplicateFontObject eqNat stEx 7 "F" "F1" 10 0 = Except.ok (some 3, stEx1) ∧
    handleDuplicateImageObject eqNat istEx 7 "I9" 9 0 [(3, ioA), (5, ioB)]
      = Except.ok (some 3, istEx1) ∧
    ((∃ l1 l2, [3] = l1 ++ 3 :: l2 ∧
       ∀ m ∈ l1, ∃ fom, stEx.fontObjects m = some fom ∧
          eqNat fom.fontDict 7 = Except.ok false) ∧
     (∃ l1 io l2, [(3, ioA), (5, ioB)] = l1 ++ (3, io) :: l2 ∧
       ∀ q ∈ l1, eqNat (Prod.snd q).imageDict 7 = Except.ok false)) :=
  ⟨rfl, rfl, rfl,
   dedup_tie_breaking eqNat eqNat 7 7 "F1" "I9" 10 0 9 0 stEx stEx1 "F" [3] 3
     istEx istEx1 [(3, ioA), (5, ioB)] 3 rfl rfl rfl⟩

/-- The canonical object number of a probe result (none on error). -/
def resultNr {D : Type} (r : Except String (Option Nat × ImgState D)) : Option Nat :=
  match r with
  | .ok (o, _) => o
  | .error _ => none

/-- C4 counterexample: [(5, _), (3, _)] and [(3, _), (5, _)] are both
admissible Go map iteration orders over istEx.imageObjects, yet the image
probe returns 5 under the first and 3 under the second.  The image
canonical is therefore not always the first-registered candidate (3) and
not determined by the input alone, refuting the claim for images. -/
theorem dedup_tie_breaking_counterexample :
    resultNr (handleDuplicateImageObject eqNat istEx 7 "I9" 9 0 [(5, ioB), (3, ioA)])
      = some 5 ∧
    resultNr (handleDuplicateImageObject eqNat istEx 7 "I9" 9 0 [(3, ioA), (5, ioB)])
      = some 3 ∧
    (5 : Nat) ≠ 3 :=
  ⟨rfl, rfl, by norm_num⟩

/-- Step operations whose extracted font name ABCDEF+G has the fresh bare
key G, forcing the registration path. -/
def opsG : StepOps Nat :=
  { eqf := eqNat
    deref := fun _ _ => Except.ok 7
    dtype := fun _ => some "Font"
    fname := fun _ _ => Except.ok "ABCDEF+G" }

/-- stEx after registering object 10 as a new font with prefix ABCDEF and
bare name G. -/
def stG : OptState Nat :=
  { fonts := fun k => if k = "G" then some [10] else stEx.fonts k
    fontObjects := fun k =>
      if k = 10 then some ⟨["F1"], "ABCDEF", "G", 7⟩ else stEx.fontObjects k
    pageFonts := fun p k => if p = 0 ∧ k = 10 then true else stEx.pageFonts p k
    duplicateFonts := stEx.duplicateFonts }

/-- Witness for C5: registering the font ABCDEF+G at object 10 records
prefix ABCDEF and bare name G. -/
theorem subset_prefix_normalization_witness :
    dEx "F1" = some (RVal.ref 10 0) ∧
    stEx.fontObjects 10 = none ∧
    opsG.deref 10 0 = Except.ok 7 ∧
    opsG.dtype 7 = some "Font" ∧
    opsG.fname 7 10 = Except.ok "ABCDEF+G" ∧
    handleDuplicateFontObject opsG.eqf stEx 7
      (String.mk (splitFontName "ABCDEF+G".toList).2) "F1" 10 0
      = Except.ok (none, stEx) ∧
    optFontResStep opsG 0 stEx dEx "F1" = Except.ok (stG, dEx) ∧
    ((∀ i, plusIndex "ABCDEF+G".toList = some i → 0 < i →
        splitFontName "ABCDEF+G".toList
          = ("ABCDEF+G".toList.take i, "ABCDEF+G".toList.drop (i + 1))) ∧
     ((plusIndex "ABCDEF+G".toList = none ∨ plusIndex "ABCDEF+G".toList = some 0) →
        splitFontName "ABCDEF+G".toList = ([], "ABCDEF+G".toList)) ∧
     stG.fontObjects 10
       = some { resourceNames := ["F1"],
                pfx := String.mk (splitFontName "ABCDEF+G".toList).1,
                fontName := String.mk (splitFontName "ABCDEF+G".toList).2,
                fontDict := 7 } ∧
     (∃ nums, stG.fonts (String.mk (splitFontName "ABCDEF+G".toList).2) = some nums ∧
        10 ∈ nums)) :=
  ⟨rfl, rfl, rfl, rfl, rfl, rfl, rfl,
   subset_prefix_normalization opsG 0 stEx stEx stG dEx dEx "F1" 10 0 7 "ABCDEF+G"
     rfl rfl rfl rfl rfl rfl rfl⟩

end PdfOpt

namespace PdfDel

/-- One xref table entry as read by deleteRedundantObjects (write.go):
the Free flag, the Offset pointer (next free object number for free
entries, else the input file offset), the generation, and whether the
stored object is a StreamDict (needed only for the linearization hint
check). -/
structure XEntry where
  free : Bool
  offset : Option Int
  gen : Int
  isStreamDict : Bool
deriving DecidableEq, Repr

/-- The Context fields read or written by deleteRedundantObjects: the xref
table with its Size, ctx.Write.Table (write offsets), ExtractPageNr, the
three duplicate sets of the Optimize state, the linearization
bookkeeping, and the Read-phase object-stream / xref-stream membership
predicates. -/
structure DelCtx where
  size : Nat
  table : Nat → Option XEntry
  writeTable : Nat → Option Int
  extractPageNr : Nat
  dupFontObjs : Nat → Bool
  dupImageObjs : Nat → Bool
  dupInfoObjs : Nat → Bool
  linearizationObjs : Nat → Bool
  linearized : Bool
  offsetPrimaryHintTable : Option Int
  offsetOverflowHintTable : Option Int
  isObjectStreamObject : Nat → Bool
  isXRefStreamObject : Nat → Bool

/-- ctx.Write.HasWriteOffset(i). -/
def hasWriteOffset (c : DelCtx) (i : Nat) : Bool := (c.writeTable i).isSome

/-- Modelled from the spec: XRefTable.DeleteObject (not among the given
sources) converts the entry to Free and splices it at the head of the
free list rooted at object 0, updating object 0's next-free pointer.
Only the entries at objNr and at 0 change. -/
def deleteObject (c : DelCtx) (j : Nat) : DelCtx :=
  { c with table := fun k =>
      if k = j then
        (c.table j).map (fun e =>
          { e with free := true, offset := (c.table 0).bind (fun e0 => e0.offset) })
      else if k = 0 then
        (c.table 0).map (fun e0 => { e0 with offset := some (Int.ofNat j) })
      else c.table k }

/-- The first half of deleteRedundantObject (write.go): the font/image
dedup deletion, performed exactly when ExtractPageNr == 0 and objNr is a
duplicate font or image object. -/
def delDedupPart (c : DelCtx) (objNr : Nat) : DelCtx :=
  if c.extractPageNr = 0 ∧ (c.dupFontObjs objNr || c.dupImageObjs objNr) = true
  then deleteObject c objNr
  else c

/-- Shallow embedding of deleteRedundantObject (write.go): the guarded
dedup deletion followed by the unconditional deletion reasons
(linearization object, duplicate Info object, input object-stream object,
input xref-stream object). -/
def deleteRedundantObject (c : DelCtx) (objNr : Nat) : DelCtx :=
  if ((delDedupPart c objNr).linearizationObjs objNr ||
      (delDedupPart c objNr).dupInfoObjs objNr ||
      (delDedupPart c objNr).isObjectStreamObject objNr ||
      (delDedupPart c objNr).isXRefStreamObject objNr) = true
  then deleteObject (delDedupPart c objNr) objNr
  else delDedupPart c objNr

/-- The linearization-hint marking inside the deleteRedundantObjects loop
(write.go): an unwritten StreamDict whose input offset equals a hint-table
offset is recorded in LinearizationObjs.  A nil OffsetPrimaryHintTable
with Linearized set would be a nil dereference in Go; the model treats it
as no match. -/
def markLin (c : DelCtx) (i : Nat) (e : XEntry) : DelCtx :=
  if c.linearized = true ∧ e.offset.isSome = true ∧ e.isStreamDict = true ∧
     (e.offset = c.offsetPrimaryHintTable ∨
      (c.offsetOverflowHintTable.isSome = true ∧ e.offset = c.offsetOverflowHintTable))
  then { c with linearizationObjs := fun k => if k = i then true else c.linearizationObjs k }
  else c

/-- One iteration of the deleteRedundantObjects loop (write.go) at object
number i: skip missing and free entries; for a written object remove i
from the three duplicate sets; otherwise mark linearization hint streams
and run deleteRedundantObject. -/
def delStep (c : DelCtx) (i : Nat) : DelCtx :=
  match c.table i with
  | none => c
  | some e =>
    if e.free then c
    else if hasWriteOffset c i then
      { c with
        dupFontObjs := fun k => if k = i then false else c.dupFontObjs k,
        dupImageObjs := fun k => if k = i then false else c.dupImageObjs k,
        dupInfoObjs := fun k => if k = i then false else c.dupInfoObjs k }
    else
      deleteRedundantObject (markLin c i e) i

/-- Shallow embedding of deleteRedundantObjects (write.go): run the loop
body for every object number below Size.  (The early return for a missing
Optimize state is dropped: the duplicate sets exist whenever the claims
apply.) -/
def deleteRedundantObjects (c : DelCtx) : DelCtx :=
  (List.range c.size).foldl delStep c

theorem deleteObject_table_ne (c : DelCtx) (j k : Nat) (hk0 : k ≠ 0) (hkj : k ≠ j) :
    (deleteObject c j).table k = c.table k := by
  unfold deleteObject
  dsimp only
  rw [if_neg hkj, if_neg hk0]

theorem deleteObject_free_at (c : DelCtx) (j : Nat) (h : (c.table j).isSome = true) :
    ((deleteObject c j).table j).map XEntry.free = some true := by
  unfold deleteObject
  dsimp only
  rw [if_pos rfl]
  cases hj : c.table j with
  | none => rw [hj] at h; cases h
  | some e => simp

theorem delDedupPart_pres (c : DelCtx) (j : Nat) :
    (delDedupPart c j).writeTable = c.writeTable ∧
    (delDedupPart c j).dupFontObjs = c.dupFontObjs ∧
    (delDedupPart c j).dupImageObjs = c.dupImageObjs ∧
    (delDedupPart c j).dupInfoObjs = c.dupInfoObjs ∧
    (delDedupPart c j).linearizationObjs = c.linearizationObjs ∧
    (delDedupPart c j).isObjectStreamObject = c.isObjectStreamObject ∧
    (delDedupPart c j).isXRefStreamObject = c.isXRefStreamObject ∧
    (delDedupPart c j).extractPageNr = c.extractPageNr := by
  unfold delDedupPart
  split <;> exact ⟨rfl, rfl, rfl, rfl, rfl, rfl, rfl, rfl⟩

theorem delDedupPart_table_ne (c : DelCtx) (j k : Nat) (hk0 : k ≠ 0) (hkj : k ≠ j) :
    (delDedupPart c j).table k = c.table k := by
  unfold delDedupPart
  split
  · exact deleteObject_table_ne c j k hk0 hkj
  · rfl

theorem dro_pres (c : DelCtx) (j : Nat) :
    (deleteRedundantObject c j).writeTable = c.writeTable ∧
    (deleteRedundantObject c j).dupFontObjs = c.dupFontObjs ∧
    (deleteRedundantObject c j).dupImageObjs = c.dupImageObjs ∧
    (deleteRedundantObject c j).dupInfoObjs = c.dupInfoObjs := by
  unfold deleteRedundantObject
  split
  · exact ⟨(delDedupPart_pres c j).1, (delDedupPart_pres c j).2.1,
      (delDedupPart_pres c j).2.2.1, (delDedupPart_pres c j).2.2.2.1⟩
  · exact ⟨(delDedupPart_pres c j).1, (delDedupPart_pres c j).2.1,
      (delDedupPart_pres c j).2.2.1, (delDedupPart_pres c j).2.2.2.1⟩

theorem dro_table_ne (c : DelCtx) (j k : Nat) (hk0 : k ≠ 0) (hkj : k ≠ j) :
    (deleteRedundantObject c j).table k = c.table k := by
  unfold deleteRedundantObject
  split
  · rw [deleteObject_table_ne _ _ _ hk0 hkj, delDedupPart_table_ne c j k hk0 hkj]
  · exact delDedupPart_table_ne c j k hk0 hkj

theorem markLin_pres (c : DelCtx) (i : Nat) (e : XEntry) :
    (markLin c i e).table = c.table ∧
    (markLin c i e).writeTable = c.writeTable ∧
    (markLin c i e).dupFontObjs = c.dupFontObjs ∧
    (markLin c i e).dupImageObjs = c.dupImageObjs ∧
    (markLin c i e).dupInfoObjs = c.dupInfoObjs := by
  unfold markLin
  split <;> exact ⟨rfl, rfl, rfl, rfl, rfl⟩

theorem delStep_writeTable (c : DelCtx) (i : Nat) :
    (delStep c i).writeTable = c.writeTable := by
  unfold delStep
  cases hci : c.table i with
  | none => rfl
  | some e =>
    dsimp only
    by_cases hf : e.free = true
    · rw [if_pos hf]
    · rw [if_neg hf]
      by_cases hwo : hasWriteOffset c i = true
      · rw [if_pos hwo]
      · rw [if_neg hwo]
        rw [(dro_pres (markLin c i e) i).1, (markLin_pres c i e).2.1]

theorem delStep_table_ne (c : DelCtx) (j k : Nat) (hk0 : k ≠ 0) (hkj : k ≠ j) :
    (delStep c j).table k = c.table k := by
  unfold delStep
  cases hcj : c.table j with
  | none => rfl
  | some e =>
    dsimp only
    by_cases hf : e.free = true
    · rw [if_pos hf]
    · rw [if_neg hf]
      by_cases hwo : hasWriteOffset c j = true
      · rw [if_pos hwo]
      · rw [if_neg hwo]
        rw [dro_table_ne _ _ _ hk0 hkj]
        rw [show (markLin c j e).table = c.table from (markLin_pres c j e).1]

theorem delStep_dups_false (c : DelCtx) (j i : Nat)
    (h1 : c.dupFontObjs i = false) (h2 : c.dupImageObjs i = false)
    (h3 : c.dupInfoObjs i = false) :
    (delStep c j).dupFontObjs i = false ∧
    (delStep c j).dupImageObjs i = false ∧
    (delStep c j).dupInfoObjs i = false := by
  unfold delStep
  cases hcj : c.table j with
  | none => exact ⟨h1, h2, h3⟩
  | some e =>
    dsimp only
    by_cases hf : e.free = true
    · rw [if_pos hf]; exact ⟨h1, h2, h3⟩
    · rw [if_neg hf]
      by_cases hwo : hasWriteOffset c j = true
      · rw [if_pos hwo]
        refine ⟨?_, ?_, ?_⟩ <;> dsimp only <;>
          (by_cases hij : i = j
           · rw [if_pos hij]
           · rw [if_neg hij]
             first
             | exact h1
             | exact h2
             | exact h3)
      · rw [if_neg hwo]
        rw [show (deleteRedundantObject (markLin c j e) j).dupFontObjs
              = (markLin c j e).dupFontObjs from (dro_pres _ _).2.1,
            show (deleteRedundantObject (markLin c j e) j).dupImageObjs
              = (markLin c j e).dupImageObjs from (dro_pres _ _).2.2.1,
            show (deleteRedundantObject (markLin c j e) j).dupInfoObjs
              = (markLin c j e).dupInfoObjs from (dro_pres _ _).2.2.2,
            show (markLin c j e).dupFontObjs = c.dupFontObjs from (markLin_pres _ _ _).2.2.1,
            show (markLin c j e).dupImageObjs = c.dupImageObjs
              from (markLin_pres _ _ _).2.2.2.1,
            show (markLin c j e).dupInfoObjs = c.dupInfoObjs
              from (markLin_pres _ _ _).2.2.2.2]
        exact ⟨h1, h2, h3⟩

theorem delStep_at_write (c : DelCtx) (i : Nat) (e : XEntry)
    (he : c.table i = some e) (hnf : e.free = false)
    (hw : (c.writeTable i).isSome = true) :
    (delStep c i).table = c.table ∧
    (delStep c i).dupFontObjs i = false ∧
    (delStep c i).dupImageObjs i = false ∧
    (delStep c i).dupInfoObjs i = false := by
  unfold delStep
  rw [he]
  dsimp only
  rw [if_neg (by simp [hnf]), if_pos (show hasWriteOffset c i = true from hw)]
  refine ⟨rfl, ?_, ?_, ?_⟩ <;> dsimp only <;> rw [if_pos rfl]

theorem delDedupPart_isSome (c : DelCtx) (i : Nat) (h : (c.table i).isSome = true) :
    ((delDedupPart c i).table i).isSome = true := by
  unfold delDedupPart
  split
  · unfold deleteObject
    dsimp only
    rw [if_pos rfl]
    cases hc : c.table i with
    | none => rw [hc] at h; cases h
    | some e => simp
  · exact h

/-- C1: after deleteRedundantObjects, every non-free entry with a write
offset is untouched (DeleteObject is never applied to it) and its object
number has been removed from DuplicateFontObjs, DuplicateImageObjs and
DuplicateInfoObjects.  The hypothesis on entry 0 is the documented
data-model invariant that object 0 is always free. -/
theorem deleteRedundantObjects_preserves_written (c : DelCtx) (i : Nat) (e : XEntry)
    (h0 : ∀ e0, c.table 0 = some e0 → e0.free = true)
    (hi : i < c.size)
    (he : c.table i = some e)
    (hnf : e.free = false)
    (hw : (c.writeTable i).isSome = true) :
    (deleteRedundantObjects c).table i = some e ∧
    (deleteRedundantObjects c).dupFontObjs i = false ∧
    (deleteRedundantObjects c).dupImageObjs i = false ∧
    (deleteRedundantObjects c).dupInfoObjs i = false := by
  have hi0 : i ≠ 0 := by
    intro hz
    subst hz
    rw [h0 e he] at hnf
    cases hnf
  have stepP : ∀ (c' : DelCtx) (j : Nat),
      c'.table i = some e ∧ (c'.writeTable i).isSome = true →
      (delStep c' j).table i = some e ∧ ((delStep c' j).writeTable i).isSome = true := by
    intro c' j hp
    constructor
    · by_cases hj : j = i
      · subst hj
        rw [(delStep_at_write c' j e hp.1 hnf hp.2).1]
        exact hp.1
      · rw [delStep_table_ne c' j i hi0 (fun hh => hj hh.symm)]
        exact hp.1
    · rw [delStep_writeTable]
      exact hp.2
  have stepQ : ∀ (c' : DelCtx) (j : Nat),
      (c'.table i = some e ∧ (c'.writeTable i).isSome = true) ∧
        c'.dupFontObjs i = false ∧ c'.dupImageObjs i = false ∧ c'.dupInfoObjs i = false →
      ((delStep c' j).table i = some e ∧ ((delStep c' j).writeTable i).isSome = true) ∧
        (delStep c' j).dupFontObjs i = false ∧ (delStep c' j).dupImageObjs i = false ∧
        (delStep c' j).dupInfoObjs i = false := by
    intro c' j hq
    exact ⟨stepP c' j hq.1, delStep_dups_false c' j i hq.2.1 hq.2.2.1 hq.2.2.2⟩
  have foldQ : ∀ (L : List Nat) (c' : DelCtx),
      (c'.table i = some e ∧ (c'.writeTable i).isSome = true) ∧
        c'.dupFontObjs i = false ∧ c'.dupImageObjs i = false ∧ c'.dupInfoObjs i = false →
      ((L.foldl delStep c').table i = some e ∧
        ((L.foldl delStep c').writeTable i).isSome = true) ∧
        (L.foldl delStep c').dupFontObjs i = false ∧
        (L.foldl delStep c').dupImageObjs i = false ∧
        (L.foldl delStep c').dupInfoObjs i = false := by
    intro L
    induction L with
    | nil => intro c' h; exact h
    | cons a L ih => intro c' h; exact ih _ (stepQ c' a h)
  have stepAt : ∀ (c' : DelCtx),
      c'.table i = some e ∧ (c'.writeTable i).isSome = true →
      ((delStep c' i).table i = some e ∧ ((delStep c' i).writeTable i).isSome = true) ∧
        (delStep c' i).dupFontObjs i = false ∧ (delStep c' i).dupImageObjs i = false ∧
        (delStep c' i).dupInfoObjs i = false := by
    intro c' hp
    obtain ⟨ht, hd1, hd2, hd3⟩ := delStep_at_write c' i e hp.1 hnf hp.2
    refine ⟨⟨by rw [ht]; exact hp.1, by rw [delStep_writeTable]; exact hp.2⟩, hd1, hd2, hd3⟩
  have foldAfter : ∀ (L : List Nat) (c' : DelCtx), i ∈ L →
      c'.table i = some e ∧ (c'.writeTable i).isSome = true →
      ((L.foldl delStep c').table i = some e ∧
        ((L.foldl delStep c').writeTable i).isSome = true) ∧
        (L.foldl delStep c').dupFontObjs i = false ∧
        (L.foldl delStep c').dupImageObjs i = false ∧
        (L.foldl delStep c').dupInfoObjs i = false := by
    intro L
    induction L with
    | nil => intro c' hm; cases hm
    | cons a L ih =>
      intro c' hm hp
      rcases List.mem_cons.mp hm with heq | hmem
      · subst heq
        exact foldQ L _ (stepAt c' hp)
      · exact ih _ hmem (stepP c' a hp)
  have hq := foldAfter (List.range c.size) c (List.mem_range.mpr hi) ⟨he, hw⟩
  exact ⟨hq.1.1, hq.2.1, hq.2.2.1, hq.2.2.2⟩

/-- The always-free entry at object number 0 used by the concrete states. -/
def fe0 : XEntry := ⟨true, some 0, 65535, false⟩

/-- A written, in-use entry for the C1 witness. -/
def fe1 : XEntry := ⟨false, some 50, 0, false⟩

/-- Concrete context for the C1 witness: object 1 is in use, was written
at offset 20, and sits in DuplicateFontObjs and DuplicateInfoObjects. -/
def cW1 : DelCtx :=
  { size := 2
    table := fun k => if k = 0 then some fe0 else if k = 1 then some fe1 else none
    writeTable := fun k => if k = 1 then some 20 else none
    extractPageNr := 0
    dupFontObjs := fun k => k == 1
    dupImageObjs := fun _ => false
    dupInfoObjs := fun k => k == 1
    linearizationObjs := fun _ => false
    linearized := false
    offsetPrimaryHintTable := none
    offsetOverflowHintTable := none
    isObjectStreamObject := fun _ => false
    isXRefStreamObject := fun _ => false }

/-- Witness for C1 at the concrete context cW1 and object number 1. -/
theorem deleteRedundantObjects_preserves_written_witness :
    ((∀ e0, cW1.table 0 = some e0 → e0.free = true) ∧
     1 < cW1.size ∧
     cW1.table 1 = some fe1 ∧
     fe1.free = false ∧
     (cW1.writeTable 1).isSome = true) ∧
    ((deleteRedundantObjects cW1).table 1 = some fe1 ∧
     (deleteRedundantObjects cW1).dupFontObjs 1 = false ∧
     (deleteRedundantObjects cW1).dupImageObjs 1 = false ∧
     (deleteRedundantObjects cW1).dupInfoObjs 1 = false) :=
  ⟨⟨fun e0 h => by injection h with h2; rw [← h2]; rfl, by decide, rfl, rfl, rfl⟩,
   deleteRedundantObjects_preserves_written cW1 1 fe1
     (fun e0 h => by injection h with h2; rw [← h2]; rfl) (by decide) rfl rfl rfl⟩

/-- An unwritten, in-use duplicate-font entry for the C2 theorems. -/
def ge1 : XEntry := ⟨false, some 100, 0, false⟩

/-- Concrete context for C2: ExtractPageNr = 0, object 1 is an unwritten
duplicate font object, and no other deletion reason applies to it. -/
def cC2 : DelCtx :=
  { size := 2
    table := fun k => if k = 0 then some fe0 else if k = 1 then some ge1 else none
    writeTable := fun _ => none
    extractPageNr := 0
    dupFontObjs := fun k => k == 1
    dupImageObjs := fun _ => false
    dupInfoObjs := fun _ => false
    linearizationObjs := fun _ => false
    linearized := false
    offsetPrimaryHintTable := none
    offsetOverflowHintTable := none
    isObjectStreamObject := fun _ => false
    isXRefStreamObject := fun _ => false }

/-- C2 counterexample: with ExtractPageNr = 0 and object 1 a duplicate
font object (no other reason applying), deleteRedundantObject does call
DeleteObject — the entry becomes free — contradicting the claim that the
dedup deletion is suppressed when ExtractPageNr == 0. -/
theorem deleteRedundantObject_counterexample :
    cC2.extractPageNr = 0 ∧
    cC2.dupFontObjs 1 = true ∧
    cC2.dupImageObjs 1 = false ∧
    cC2.linearizationObjs 1 = false ∧
    cC2.dupInfoObjs 1 = false ∧
    cC2.isObjectStreamObject 1 = false ∧
    cC2.isXRefStreamObject 1 = false ∧
    (cC2.writeTable 1).isSome = false ∧
    cC2.table 1 = some ge1 ∧
    ge1.free = false ∧
    ((deleteRedundantObject cC2 1).table 1).map XEntry.free = some true :=
  ⟨rfl, rfl, rfl, rfl, rfl, rfl, rfl, rfl, rfl, rfl, rfl⟩

/-- C2 (amended): deleteRedundantObject performs the font/image dedup
deletion exactly when ExtractPageNr == 0 and suppresses it when
ExtractPageNr ≠ 0; linearization objects, duplicate Info objects, input
object-stream objects and input xref-stream objects are deleted regardless
of ExtractPageNr; with ExtractPageNr ≠ 0 and no other reason the context
is wholly unchanged. -/
theorem deleteRedundantObject_policy (c : DelCtx) (i : Nat)
    (hsome : (c.table i).isSome = true) :
    (c.extractPageNr = 0 → (c.dupFontObjs i || c.dupImageObjs i) = true →
      ((deleteRedundantObject c i).table i).map XEntry.free = some true) ∧
    ((c.linearizationObjs i || c.dupInfoObjs i || c.isObjectStreamObject i ||
      c.isXRefStreamObject i) = true →
      ((deleteRedundantObject c i).table i).map XEntry.free = some true) ∧
    (c.extractPageNr ≠ 0 →
      (c.linearizationObjs i || c.dupInfoObjs i || c.isObjectStreamObject i ||
       c.isXRefStreamObject i) = false →
      deleteRedundantObject c i = c) := by
  refine ⟨?_, ?_, ?_⟩
  · intro hx hd
    unfold deleteRedundantObject
    split
    · exact deleteObject_free_at _ i (delDedupPart_isSome c i hsome)
    · unfold delDedupPart
      rw [if_pos ⟨hx, hd⟩]
      exact deleteObject_free_at c i hsome
  · intro hr
    unfold deleteRedundantObject
    have hc : ((delDedupPart c i).linearizationObjs i || (delDedupPart c i).dupInfoObjs i ||
        (delDedupPart c i).isObjectStreamObject i ||
        (delDedupPart c i).isXRefStreamObject i) = true := by
      rw [(delDedupPart_pres c i).2.2.2.2.1, (delDedupPart_pres c i).2.2.2.1,
        (delDedupPart_pres c i).2.2.2.2.2.1, (delDedupPart_pres c i).2.2.2.2.2.2.1]
      exact hr
    rw [if_pos hc]
    exact deleteObject_free_at _ i (delDedupPart_isSome c i hsome)
  · intro hx hnr
    have hdd : delDedupPart c i = c := by
      unfold delDedupPart
      rw [if_neg]
      rintro ⟨h1, -⟩
      exact hx h1
    unfold deleteRedundantObject
    rw [hdd, if_neg (by simp [hnr])]

/-- Witness for C2 (amended) at the concrete context cC2 and object 1. -/
theorem deleteRedundantObject_policy_witness :
    (cC2.table 1).isSome = true ∧
    ((cC2.extractPageNr = 0 → (cC2.dupFontObjs 1 || cC2.dupImageObjs 1) = true →
       ((deleteRedundantObject cC2 1).table 1).map XEntry.free = some true) ∧
     ((cC2.linearizationObjs 1 || cC2.dupInfoObjs 1 || cC2.isObjectStreamObject 1 ||
       cC2.isXRefStreamObject 1) = true →
       ((deleteRedundantObject cC2 1).table 1).map XEntry.free = some true) ∧
     (cC2.extractPageNr ≠ 0 →
       (cC2.linearizationObjs 1 || cC2.dupInfoObjs 1 || cC2.isObjectStreamObject 1 ||
        cC2.isXRefStreamObject 1) = false →
       deleteRedundantObject cC2 1 = cC2)) :=
  ⟨rfl, deleteRedundantObject_policy cC2 1 rfl⟩

end PdfDel
